import Mathlib

/-!
Shallow embedding of the bettertrack portfolio model:
assets, liabilities, asset/debt accounts, the configuration layer,
and the net-worth aggregation routine. Money and share quantities are
modelled as rationals; the external price lookup is an injected function
`String → Except String ℚ` (error = exception message). Mutation of
account state is modelled by explicit state passing; a raised exception
carries the account state at the point of the raise.
-/

namespace BetterTrack

/-- The `AssetType` enum from `core/assets.py`. -/
inductive AssetType
  | stocks | bonds | moneyMarket | cd | cash | realEstate | crypto | commodity
  deriving DecidableEq, Repr

/-- The `Asset` dataclass from `core/assets.py`. -/
structure Asset where
  type_ : AssetType
  name : String
  ticker : String
  shares : ℚ := 0
  cost_basis : Option ℚ := none
  yield_ : Option ℚ := none
  expense_ratio : ℚ := 0
  deriving DecidableEq, Repr

/-- The exceptions `Asset.__add__` can raise: `TypeError` on a ticker
mismatch, `TypeError` from `float * None` when a cost basis is `None` on
the weighted-average path, and `ZeroDivisionError` from the division by
`total_shares` when the combined share count is zero. -/
inductive AssetAddError
  | tickerMismatch
  | noneCostBasis
  | zeroTotalShares
  deriving DecidableEq, Repr

/-- The `Asset.__add__` from `core/assets.py`: mismatched tickers raise;
a zero-share left operand returns the right operand unchanged; otherwise
shares add and the cost basis is the share-weighted average. Both cost
bases must be non-`None` (Python multiplication with `None` raises
`TypeError` while building the numerator) and the combined share count
must be nonzero (the division by `total_shares` raises
`ZeroDivisionError` when it is 0.0). -/
def Asset.add (self other : Asset) : Except AssetAddError Asset :=
  if self.ticker ≠ other.ticker then
    .error .tickerMismatch
  else if self.shares = 0 then
    .ok other
  else
    match self.cost_basis, other.cost_basis with
    | some cb₁, some cb₂ =>
      if self.shares + other.shares = 0 then
        .error .zeroTotalShares
      else
        .ok { self with
                shares := self.shares + other.shares
                cost_basis := some ((self.shares * cb₁ + other.shares * cb₂)
                  / (self.shares + other.shares)) }
    | _, _ => .error .noneCostBasis

/-- The `LiabilityType` enum from `core/debts.py`. -/
inductive LiabilityType
  | auto | house | education | creditCard | personal
  deriving DecidableEq, Repr

/-- The `Liability` dataclass from `core/debts.py`. -/
structure Liability where
  type_ : LiabilityType
  name : String
  apr : ℚ
  og_principal : ℚ
  tenure : ℤ
  deriving DecidableEq, Repr

/-- Replace a liability's apr and tenure, keeping every other field. -/
def Liability.setRate (l : Liability) (apr : ℚ) (tenure : ℤ) : Liability :=
  { l with apr := apr, tenure := tenure }

/-- The `AccountType` enum from `core/accounts/_base.py`. -/
inductive AccountType
  | bank | creditUnion | brokerage | creditCard
  deriving DecidableEq, Repr

/-- A result of the injected price lookup `get_current_price` from
`price.py`: a price on success, an exception message on failure. -/
abbrev PriceFn := String → Except String ℚ

/-- The `AssetAccount` state from `core/accounts/_asset.py`: the base-class
fields plus the ticker-keyed holdings dict (an insertion-ordered
association list, as Python dicts preserve insertion order) and the cash
balance. `total_amt` is the base-class `_total_amt`, 0.0 at construction. -/
structure AssetAccount where
  institution : String
  acc_type : AccountType
  holdings : List (String × Asset) := []
  cash_amt : ℚ := 0
  total_amt : ℚ := 0
  deriving DecidableEq, Repr

/-- Python `dict.__getitem__` keyed by ticker: the value at the first
(and only, by uniqueness) matching key, or `none` (a `KeyError`). -/
def dictGet (d : List (String × Asset)) (k : String) : Option Asset :=
  (d.find? (fun p => p.1 = k)).map Prod.snd

/-- Python `dict.__setitem__`: replace the value at an existing key in
place, else append the new binding at the end (insertion order). -/
def dictSet (d : List (String × Asset)) (k : String) (v : Asset) :
    List (String × Asset) :=
  match d with
  | [] => [(k, v)]
  | (k₀, v₀) :: rest =>
    if k₀ = k then (k, v) :: rest else (k₀, v₀) :: dictSet rest k v

/-- The exceptions `AssetAccount.buy` can raise: `OutOfCashError`, a
propagated price-lookup exception, `ZeroDivisionError` from
`amt / cost_basis`, and a `TypeError` escaping from `Asset.__add__`. -/
inductive BuyError
  | outOfCash
  | priceLookup (msg : String)
  | zeroDivision
  | addError (e : AssetAddError)
  deriving DecidableEq, Repr

/-- The `AssetAccount.buy` from `core/accounts/_asset.py`. Returns the new
cash balance and the updated account; an error carries the account state
at the point the exception was raised (every raise in the source happens
before any mutation of `self`, so that state is always the input). -/
def AssetAccount.buy (acc : AssetAccount) (price : PriceFn) (amt : ℚ)
    (holding : Asset) : Except (BuyError × AssetAccount) (ℚ × AssetAccount) :=
  if amt > acc.cash_amt then
    .error (.outOfCash, acc)
  else
    match price holding.ticker with
    | .error msg => .error (.priceLookup msg, acc)
    | .ok p =>
      if p = 0 then .error (.zeroDivision, acc)
      else
        let bought := { holding with cost_basis := some p, shares := amt / p }
        match dictGet acc.holdings bought.ticker with
        | some existing =>
          match existing.add bought with
          | .error e => .error (.addError e, acc)
          | .ok m =>
            .ok (acc.cash_amt - amt,
              { acc with
                  holdings := dictSet acc.holdings bought.ticker m
                  cash_amt := acc.cash_amt - amt })
        | none =>
          .ok (acc.cash_amt - amt,
            { acc with
                holdings := dictSet acc.holdings bought.ticker bought
                cash_amt := acc.cash_amt - amt })

/-- The holdings loop of `AssetAccount.reconcile`: fold the market value
of each holding into the running total, stopping at the first
price-lookup failure. -/
def reconcileLoop (price : PriceFn) (hs : List (String × Asset)) (total : ℚ) :
    Except String ℚ :=
  match hs with
  | [] => .ok total
  | (_, h) :: rest =>
    match price h.ticker with
    | .error msg => .error msg
    | .ok p => reconcileLoop price rest (total + h.shares * p)

/-- The `AssetAccount.reconcile` from `core/accounts/_asset.py`: total = cash
plus the market value of each holding; `_total_amt` is assigned only
after the whole loop succeeds, so a propagated price-lookup error carries
the unchanged account state. -/
def AssetAccount.reconcile (acc : AssetAccount) (price : PriceFn) :
    Except (String × AssetAccount) (ℚ × AssetAccount) :=
  match reconcileLoop price acc.holdings acc.cash_amt with
  | .error msg => .error (msg, acc)
  | .ok total => .ok (total, { acc with total_amt := total })

/-- The `DebtAccount` state from `core/accounts/_debt.py`: base-class fields
plus the liability list. The two-or-more-liabilities check lives in
`DebtAccount.mk?` below, which models `__init__`. -/
structure DebtAccount where
  institution : String
  acc_type : AccountType
  holdings : List Liability := []
  total_amt : ℚ := 0
  deriving DecidableEq, Repr

/-- The `DebtAccount.__init__` from `core/accounts/_debt.py`: raises
`NotImplementedError` when more than one loan entry is supplied
(`acc_holdings and len(acc_holdings) > 1`), otherwise constructs the
account with `_total_amt = 0.0`. -/
def DebtAccount.mk? (institution : String) (acc_type : AccountType)
    (acc_holdings : List Liability) : Except String DebtAccount :=
  if acc_holdings.length > 1 then
    .error "Multiple loan entries for a debt account not yet supported"
  else
    .ok { institution := institution, acc_type := acc_type,
          holdings := acc_holdings }

/-- The `DebtAccount.reconcile` from `core/accounts/_debt.py`: total starts
at 0.0 and, when the holdings list is non-empty, accumulates each
liability's `og_principal`; the total is stored and returned. -/
def DebtAccount.reconcile (acc : DebtAccount) : ℚ × DebtAccount :=
  let total :=
    if acc.holdings.isEmpty then 0
    else acc.holdings.foldl (fun t l => t + l.og_principal) 0
  (total, { acc with total_amt := total })

/-- The `AssetConfig` pydantic model from `config/portfolio.py`. Pydantic
validates field types and enum membership only; the model declares no
range constraints, so any rational is accepted for the numeric fields. -/
structure AssetConfig where
  type_ : AssetType
  name : String
  ticker : String
  shares : ℚ := 0
  cost_basis : Option ℚ := none
  yield_ : Option ℚ := none
  expense_ratio : ℚ := 0
  deriving DecidableEq, Repr

/-- The `AssetConfig.to_asset`: field-for-field conversion to `Asset`. -/
def AssetConfig.to_asset (c : AssetConfig) : Asset :=
  { type_ := c.type_, name := c.name, ticker := c.ticker,
    shares := c.shares, cost_basis := c.cost_basis,
    yield_ := c.yield_, expense_ratio := c.expense_ratio }

/-- The `DebtConfig` pydantic model from `config/portfolio.py`; like
`AssetConfig` it declares no range constraints on apr, og_principal or
tenure. -/
structure DebtConfig where
  type_ : LiabilityType
  name : String
  apr : ℚ
  og_principal : ℚ
  tenure : ℤ
  deriving DecidableEq, Repr

/-- The `DebtConfig.to_liability`: field-for-field conversion to `Liability`. -/
def DebtConfig.to_liability (c : DebtConfig) : Liability :=
  { type_ := c.type_, name := c.name, apr := c.apr,
    og_principal := c.og_principal, tenure := c.tenure }

/-- One entry of `AccountConfig.acc_holdings`, which is a list of
`AssetConfig | DebtConfig`. -/
inductive HoldingConfig
  | asset (a : AssetConfig)
  | debt (d : DebtConfig)
  deriving DecidableEq, Repr

/-- Python `isinstance(h, DebtConfig)`. -/
def HoldingConfig.isDebt : HoldingConfig → Bool
  | .debt _ => true
  | .asset _ => false

/-- Python `isinstance(h, AssetConfig)`. -/
def HoldingConfig.isAsset : HoldingConfig → Bool
  | .asset _ => true
  | .debt _ => false

/-- The `AccountConfig` pydantic model from `config/portfolio.py`. -/
structure AccountConfig where
  institution : String
  acc_type : AccountType
  acc_holdings : Option (List HoldingConfig) := none
  cash : ℚ := 0
  deriving DecidableEq, Repr

/-- The produced account: `to_account` returns either an `AssetAccount`
or a `DebtAccount`. -/
inductive Account
  | asset (a : AssetAccount)
  | debt (d : DebtAccount)
  deriving DecidableEq, Repr

/-- The `has_debts` from `AccountConfig.to_account`: the holdings list is
present and non-empty (Python truthiness) and some entry is a
`DebtConfig`. -/
def AccountConfig.has_debts (c : AccountConfig) : Bool :=
  match c.acc_holdings with
  | none => false
  | some hs => !hs.isEmpty && hs.any HoldingConfig.isDebt

/-- The `has_assets` from `AccountConfig.to_account`. -/
def AccountConfig.has_assets (c : AccountConfig) : Bool :=
  match c.acc_holdings with
  | none => false
  | some hs => !hs.isEmpty && hs.any HoldingConfig.isAsset

/-- The debt entries of a holdings list, converted to liabilities, in
order (the `debt_holdings` list comprehension). -/
def debtHoldingsOf (hs : List HoldingConfig) : List Liability :=
  hs.filterMap fun h =>
    match h with
    | .debt d => some d.to_liability
    | .asset _ => none

/-- The asset-insertion loop of the else-branch of `to_account`:
`acc._holdings[asset.ticker] = asset` for each `AssetConfig` entry. -/
def insertAssets (hs : List HoldingConfig) (d : List (String × Asset)) :
    List (String × Asset) :=
  match hs with
  | [] => d
  | .asset a :: rest => insertAssets rest (dictSet d a.to_asset.ticker a.to_asset)
  | .debt _ :: rest => insertAssets rest d

/-- The `AccountConfig.to_account` from `config/portfolio.py`: when any debt
holding is present a `DebtAccount` is built from the debt entries alone
(the `DebtAccount.__init__` guard may raise); otherwise an `AssetAccount`
is built, cash is transferred in only when strictly positive, and the
asset entries are inserted directly into the holdings dict. -/
def AccountConfig.to_account (c : AccountConfig) : Except String Account :=
  if c.has_debts then
    (DebtAccount.mk? c.institution c.acc_type
      (debtHoldingsOf (c.acc_holdings.getD []))).map Account.debt
  else
    let acc : AssetAccount :=
      { institution := c.institution, acc_type := c.acc_type }
    let acc := if c.cash > 0 then { acc with cash_amt := acc.cash_amt + c.cash } else acc
    let acc :=
      if c.has_assets then
        { acc with holdings := insertAssets (c.acc_holdings.getD []) acc.holdings }
      else acc
    .ok (Account.asset acc)

/-- The `PortfolioConfig` pydantic model (the fields the net-worth
computation reads). -/
structure PortfolioConfig where
  name : String
  owner : String
  accounts : List AccountConfig
  deriving DecidableEq, Repr

/-- The body of `NetworthCalculator.calculate_networth`: in stored
order, reconcile each account and add an asset account's stored
`total_amount` or subtract a debt account's; a propagated reconcile
exception aborts the computation. -/
def networthLoop (price : PriceFn) (accounts : List Account) (nw : ℚ) :
    Except String ℚ :=
  match accounts with
  | [] => .ok nw
  | .asset a :: rest =>
    match a.reconcile price with
    | .error (msg, _) => .error msg
    | .ok (_, a') => networthLoop price rest (nw + a'.total_amt)
  | .debt d :: rest =>
    networthLoop price rest (nw - (d.reconcile).2.total_amt)

/-- The `NetworthCalculator.__init__`: convert every account config (any
construction exception propagates). -/
def NetworthCalculator.accounts (p : PortfolioConfig) :
    Except String (List Account) :=
  p.accounts.mapM AccountConfig.to_account

/-- The `compute_networth` from `calc/networth.py`: build the accounts, then
run `calculate_networth` starting from 0.0. -/
def compute_networth (price : PriceFn) (p : PortfolioConfig) :
    Except String ℚ :=
  match NetworthCalculator.accounts p with
  | .error msg => .error msg
  | .ok accs => networthLoop price accs 0

/-- The market value of one holdings-dict entry under price function `f`. -/
def marketValue (f : String → ℚ) (p : String × Asset) : ℚ :=
  p.2.shares * f p.2.ticker

/-- The reconciled total of an asset account, when its reconcile
succeeds. -/
def assetReconTotal (price : PriceFn) : Account → Option ℚ
  | .asset a =>
    match a.reconcile price with
    | .ok (t, _) => some t
    | .error _ => none
  | .debt _ => none

/-- The reconciled total of a debt account. -/
def debtReconTotal : Account → Option ℚ
  | .debt d => some (d.reconcile).1
  | .asset _ => none

/-- A price lookup that always fails (no live price source); accounts
without holdings never invoke it. -/
def noPrices : PriceFn := fun _ => .error "no price available"

/-- The single-asset-account portfolio of the spec example: cash 50000,
no holdings. -/
def portfolioCash50k : PortfolioConfig :=
  { name := "sample", owner := "owner",
    accounts := [{ institution := "First Bank", acc_type := .bank,
                   cash := 50000 }] }

/-- The liability of the spec's debt example: original principal 30000. -/
def liab30k : Liability :=
  { type_ := .auto, name := "car loan", apr := 5, og_principal := 30000,
    tenure := 60 }

/-- The single-debt-account portfolio of the spec example: one liability
with original principal 30000. -/
def portfolioDebt30k : PortfolioConfig :=
  { name := "sample", owner := "owner",
    accounts := [{ institution := "Auto Lender", acc_type := .creditCard,
                   acc_holdings := some [.debt
                     { type_ := .auto, name := "car loan", apr := 5,
                       og_principal := 30000, tenure := 60 }] }] }

/-- The debt account holding `liab30k`. -/
def debtAccount30k : DebtAccount :=
  { institution := "Auto Lender", acc_type := .creditCard,
    holdings := [liab30k] }

/-- The VTI holding of the spec's mocked-lookup example: 100 shares. -/
def vtiHolding : Asset :=
  { type_ := .stocks, name := "Vanguard Total Stock Market ETF",
    ticker := "VTI", shares := 100 }

/-- The brokerage account of the spec's mocked-lookup example: cash
10000 plus the 100-share VTI holding. -/
def brokerageAcct : AssetAccount :=
  { institution := "Brokerage", acc_type := .brokerage,
    holdings := [("VTI", vtiHolding)], cash_amt := 10000 }

/-- The mocked price lookup returning 75.0 for every ticker. -/
def price75 : PriceFn := fun _ => .ok 75

/-- A debt account with no liabilities. -/
def emptyDebtAcct : DebtAccount :=
  { institution := "Card Issuer", acc_type := .creditCard }

/-- Concrete merge operands: 2 shares at cost basis 10. -/
def assetTwoShares : Asset :=
  { type_ := .stocks, name := "two", ticker := "VTI", shares := 2,
    cost_basis := some 10 }

/-- Concrete merge operands: 3 shares at cost basis 20. -/
def assetThreeShares : Asset :=
  { type_ := .stocks, name := "three", ticker := "VTI", shares := 3,
    cost_basis := some 20 }

/-- A zero-share holding of the same ticker. -/
def assetZeroShares : Asset :=
  { type_ := .stocks, name := "zero", ticker := "VTI", shares := 0 }

/-- A same-ticker holding of -2 shares (negative shares are
constructible: nothing validates the bound), cost basis present: merging
it into the 2-share holding makes the combined share count zero. -/
def assetMinusTwoShares : Asset :=
  { type_ := .stocks, name := "short", ticker := "VTI", shares := -2,
    cost_basis := some 20 }

/-- An account config mixing cash, an asset holding and a debt holding:
the debt branch of `to_account` applies. -/
def mixedConfig : AccountConfig :=
  { institution := "Mixed Bank", acc_type := .bank,
    acc_holdings := some [.asset
      { type_ := .stocks, name := "ignored", ticker := "IGN", shares := 7 },
      .debt { type_ := .personal, name := "loan", apr := 3,
              og_principal := 1200, tenure := 24 }],
    cash := 999 }

/-- The same config without the cash and without the asset entry. -/
def debtOnlyConfig : AccountConfig :=
  { institution := "Mixed Bank", acc_type := .bank,
    acc_holdings := some [.debt
      { type_ := .personal, name := "loan", apr := 3,
        og_principal := 1200, tenure := 24 }] }

/-- An asset account with 10 of cash, for the failed-purchase example. -/
def poorAcct : AssetAccount :=
  { institution := "Thin Bank", acc_type := .bank, cash_amt := 10 }

/-- An asset account whose reconcile must consult the price lookup:
prior stale total 123. -/
def staleAcct : AssetAccount :=
  { institution := "Brokerage", acc_type := .brokerage,
    holdings := [("VTI", vtiHolding)], cash_amt := 10000, total_amt := 123 }

/-- Two concrete liabilities, for the rejected-construction example. -/
def twoLiabs : List Liability :=
  [liab30k, { type_ := .personal, name := "second", apr := 2,
              og_principal := 100, tenure := 12 }]

/-- An asset configuration carrying a negative share count. -/
def negAssetConfig : AssetConfig :=
  { type_ := .stocks, name := "negative shares", ticker := "NEG",
    shares := -5, cost_basis := some 10, expense_ratio := -1 }

/-- A debt configuration carrying negative apr, principal and tenure. -/
def negDebtConfig : DebtConfig :=
  { type_ := .personal, name := "negative loan", apr := -1,
    og_principal := -100, tenure := -12 }

/-- An account config holding the negative-share asset. -/
def negAccountConfig : AccountConfig :=
  { institution := "Loose Bank", acc_type := .brokerage,
    acc_holdings := some [.asset negAssetConfig] }

lemma reconcileLoop_ok (price : PriceFn) (f : String → ℚ)
    (hs : List (String × Asset)) :
    ∀ t : ℚ, (∀ p ∈ hs, price p.2.ticker = .ok (f p.2.ticker)) →
      reconcileLoop price hs t = .ok (t + (hs.map (marketValue f)).sum) := by
  induction hs with
  | nil => intro t _; simp [reconcileLoop]
  | cons p rest ih =>
    intro t hp
    obtain ⟨k, h₀⟩ := p
    have h₁ : price h₀.ticker = .ok (f h₀.ticker) :=
      hp (k, h₀) (List.mem_cons_self _ _)
    simp only [reconcileLoop, h₁]
    rw [ih _ (fun q hq => hp q (List.mem_cons_of_mem _ hq))]
    simp [marketValue, add_assoc]

lemma reconcileLoop_error (price : PriceFn) (hs : List (String × Asset)) :
    ∀ t : ℚ, (∃ p ∈ hs, ∃ msg, price p.2.ticker = .error msg) →
      ∃ msg, reconcileLoop price hs t = .error msg := by
  induction hs with
  | nil => simp
  | cons p rest ih =>
    rintro t ⟨q, hq, msg, hmsg⟩
    obtain ⟨k, h₀⟩ := p
    cases hpr : price h₀.ticker with
    | error m => exact ⟨m, by simp [reconcileLoop, hpr]⟩
    | ok v =>
      rcases List.mem_cons.mp hq with rfl | hq'
      · rw [hpr] at hmsg; cases hmsg
      · simpa only [reconcileLoop, hpr] using ih _ ⟨q, hq', msg, hmsg⟩

lemma AssetAccount.reconcile_ok_loop (price : PriceFn) (a : AssetAccount)
    (t : ℚ) (a' : AssetAccount) (h : a.reconcile price = .ok (t, a')) :
    reconcileLoop price a.holdings a.cash_amt = .ok t := by
  unfold AssetAccount.reconcile at h
  cases hl : reconcileLoop price a.holdings a.cash_amt with
  | error m => rw [hl] at h; cases h
  | ok total => rw [hl] at h; injection h with h'; rw [(Prod.mk.injEq _ _ _ _).mp h'.symm |>.1]

lemma AssetAccount.reconcile_ok_state (price : PriceFn) (a : AssetAccount)
    (t : ℚ) (a' : AssetAccount) (h : a.reconcile price = .ok (t, a')) :
    a' = { a with total_amt := t } := by
  unfold AssetAccount.reconcile at h
  cases hl : reconcileLoop price a.holdings a.cash_amt with
  | error m => rw [hl] at h; cases h
  | ok total =>
    rw [hl] at h
    injection h with h'
    obtain ⟨h₁, h₂⟩ := (Prod.mk.injEq _ _ _ _).mp h'
    rw [← h₂, h₁]

lemma foldl_add_og_principal (hs : List Liability) :
    ∀ c : ℚ, hs.foldl (fun t l => t + l.og_principal) c =
      c + (hs.map Liability.og_principal).sum := by
  induction hs with
  | nil => simp
  | cons l rest ih => intro c; simp [ih, add_assoc]

lemma DebtAccount.reconcile_fst (acc : DebtAccount) :
    (acc.reconcile).1 = (acc.holdings.map Liability.og_principal).sum := by
  unfold DebtAccount.reconcile
  cases hcase : acc.holdings with
  | nil => simp
  | cons l rest => simp [foldl_add_og_principal]

lemma DebtAccount.reconcile_snd (acc : DebtAccount) :
    (acc.reconcile).2.total_amt = (acc.reconcile).1 := by
  unfold DebtAccount.reconcile
  simp

lemma networthLoop_ok (price : PriceFn) :
    ∀ (accs : List Account) (nw v : ℚ),
      networthLoop price accs nw = .ok v →
      v = nw + (accs.filterMap (assetReconTotal price)).sum
             - (accs.filterMap debtReconTotal).sum := by
  intro accs
  induction accs with
  | nil =>
    intro nw v h
    injection h with h'
    simp [h']
  | cons acc rest ih =>
    intro nw v h
    cases acc with
    | asset a =>
      cases hrec : a.reconcile price with
      | error e =>
        rw [networthLoop, hrec] at h
        cases h
      | ok p =>
        obtain ⟨t, a'⟩ := p
        rw [networthLoop, hrec] at h
        replace h : networthLoop price rest (nw + a'.total_amt) = Except.ok v := h
        have hstate := AssetAccount.reconcile_ok_state price a t a' hrec
        have htot : a'.total_amt = t := by rw [hstate]
        rw [htot] at h
        have := ih (nw + t) v h
        simp only [List.filterMap_cons, assetReconTotal, debtReconTotal, hrec,
          List.sum_cons] at *
        linarith
    | debt d =>
      rw [networthLoop, DebtAccount.reconcile_snd] at h
      have := ih (nw - (d.reconcile).1) v h
      simp only [List.filterMap_cons, assetReconTotal, debtReconTotal,
        List.sum_cons] at *
      linarith

/-- C1: net worth reconciles every account in stored order and equals
the sum of reconciled asset-account totals minus the sum of reconciled
debt-account totals; in particular the all-cash 50000 portfolio yields
50000 and the single-30000-liability portfolio yields -30000. -/
theorem networth_assets_minus_debts :
    (∀ (price : PriceFn) (accs : List Account) (v : ℚ),
        networthLoop price accs 0 = .ok v →
        v = (accs.filterMap (assetReconTotal price)).sum
            - (accs.filterMap debtReconTotal).sum)
    ∧ compute_networth noPrices portfolioCash50k = .ok 50000
    ∧ compute_networth noPrices portfolioDebt30k = .ok (-30000) := by
  refine ⟨fun price accs v h => ?_, ?_, ?_⟩
  · have := networthLoop_ok price accs 0 v h
    linarith
  · simp [compute_networth, NetworthCalculator.accounts, portfolioCash50k,
      AccountConfig.to_account, AccountConfig.has_debts,
      AccountConfig.has_assets, networthLoop, AssetAccount.reconcile,
      reconcileLoop, noPrices, List.mapM, List.mapM.loop]
  · simp [compute_networth, NetworthCalculator.accounts, portfolioDebt30k,
      AccountConfig.to_account, AccountConfig.has_debts,
      AccountConfig.has_assets, networthLoop, DebtAccount.reconcile,
      DebtAccount.mk?, debtHoldingsOf, DebtConfig.to_liability, noPrices,
      List.mapM, List.mapM.loop, HoldingConfig.isDebt,
      HoldingConfig.isAsset, Except.map]

/-- Closed instance of the aggregation law of `networth_assets_minus_debts`
on the concrete single-debt-account list. -/
theorem networth_assets_minus_debts_witness :
    networthLoop noPrices [Account.debt debtAccount30k] 0 = .ok (-30000)
    ∧ (-30000 : ℚ) =
        ([Account.debt debtAccount30k].filterMap (assetReconTotal noPrices)).sum
        - ([Account.debt debtAccount30k].filterMap debtReconTotal).sum := by
  have h : networthLoop noPrices [Account.debt debtAccount30k] 0
      = .ok (-30000) := by
    simp [networthLoop, DebtAccount.reconcile, debtAccount30k, liab30k]
  exact ⟨h, networth_assets_minus_debts.1 noPrices _ _ h⟩

/-- C2: when the price lookup succeeds on every held ticker, reconcile
returns cash plus the sum of shares times looked-up price over the
holdings, and stores that value as the account's total_amount. -/
theorem asset_reconcile_marks_to_market (f : String → ℚ) (price : PriceFn)
    (a : AssetAccount)
    (h : ∀ p ∈ a.holdings, price p.2.ticker = .ok (f p.2.ticker)) :
    a.reconcile price =
      .ok (a.cash_amt + (a.holdings.map (marketValue f)).sum,
        { a with total_amt :=
            a.cash_amt + (a.holdings.map (marketValue f)).sum }) := by
  unfold AssetAccount.reconcile
  rw [reconcileLoop_ok price f a.holdings a.cash_amt h]

/-- Closed instance of `asset_reconcile_marks_to_market`: cash 10000
plus 100 shares at mocked price 75.0 reconciles to 17500. -/
theorem asset_reconcile_marks_to_market_witness :
    brokerageAcct.reconcile price75 =
      .ok (17500, { brokerageAcct with total_amt := 17500 }) := by
  have h := asset_reconcile_marks_to_market (fun _ => 75) price75
    brokerageAcct (fun p _ => rfl)
  have hval : brokerageAcct.cash_amt
      + (brokerageAcct.holdings.map (marketValue (fun _ => 75))).sum
      = 17500 := by
    norm_num [brokerageAcct, vtiHolding, marketValue]
  rw [hval] at h
  exact h

/-- C3: DebtAccount.reconcile returns the sum of the liabilities'
original principals (0 when there are none), stores it as total_amount,
and is unaffected by every liability's apr and tenure. -/
theorem debt_reconcile_sums_principal (acc : DebtAccount) :
    (acc.reconcile).1 = (acc.holdings.map Liability.og_principal).sum
    ∧ (acc.reconcile).2.total_amt = (acc.reconcile).1
    ∧ (acc.holdings = [] → (acc.reconcile).1 = 0)
    ∧ ∀ (fapr : Liability → ℚ) (ften : Liability → ℤ),
        (({ acc with
              holdings := acc.holdings.map fun l => l.setRate (fapr l) (ften l) }
          : DebtAccount).reconcile).1 = (acc.reconcile).1 := by
  refine ⟨DebtAccount.reconcile_fst acc, DebtAccount.reconcile_snd acc,
    ?_, ?_⟩
  · intro h
    rw [DebtAccount.reconcile_fst, h]
    simp
  · intro fapr ften
    rw [DebtAccount.reconcile_fst, DebtAccount.reconcile_fst]
    simp [List.map_map, Function.comp_def, Liability.setRate]

/-- Closed instance of `debt_reconcile_sums_principal`: the no-liability
account reconciles to 0, and the 30000-principal account to 30000. -/
theorem debt_reconcile_sums_principal_witness :
    (emptyDebtAcct.reconcile).1 = 0
    ∧ (debtAccount30k.reconcile).1 = 30000 := by
  refine ⟨(debt_reconcile_sums_principal emptyDebtAcct).2.2.1 rfl, ?_⟩
  rw [(debt_reconcile_sums_principal debtAccount30k).1]
  norm_num [debtAccount30k, liab30k]

/-- C4 counterexample: at 2 shares (basis 10) merged with -2 shares
(basis 20) — equal tickers, positive left shares, both cost bases
present — `Asset.__add__` raises `ZeroDivisionError` instead of
returning the weighted-average merge the claim asserts. -/
theorem asset_merge_zero_total_shares :
    assetTwoShares.ticker = assetMinusTwoShares.ticker
    ∧ 0 < assetTwoShares.shares
    ∧ assetTwoShares.cost_basis = some 10
    ∧ assetMinusTwoShares.cost_basis = some 20
    ∧ assetTwoShares.add assetMinusTwoShares = .error .zeroTotalShares := by
  refine ⟨rfl, by norm_num [assetTwoShares], rfl, rfl, ?_⟩
  norm_num [Asset.add, assetTwoShares, assetMinusTwoShares]

/-- C4 amended: merging same-ticker assets with positive left shares,
both cost bases present and a nonzero combined share count adds the
share counts and takes the share-weighted average cost basis (a zero
combined count instead raises ZeroDivisionError); merging out of a
zero-share asset returns the other operand unchanged. -/
theorem asset_merge_weighted_average :
    (∀ (a b : Asset) (ca cb : ℚ), a.ticker = b.ticker → 0 < a.shares →
        a.shares + b.shares ≠ 0 →
        a.cost_basis = some ca → b.cost_basis = some cb →
        a.add b = .ok
          { a with
              shares := a.shares + b.shares
              cost_basis := some ((a.shares * ca + b.shares * cb)
                / (a.shares + b.shares)) })
    ∧ (∀ a b : Asset, a.ticker = b.ticker → a.shares = 0 →
        a.add b = .ok b) := by
  constructor
  · intro a b ca cb ht hs htot hca hcb
    unfold Asset.add
    rw [if_neg (by simp [ht]), if_neg hs.ne', hca, hcb]
    simp [htot]
  · intro a b ht hs
    unfold Asset.add
    rw [if_neg (by simp [ht]), if_pos hs]

/-- Closed instance of `asset_merge_weighted_average`: merging 2 shares
at basis 10 with 3 shares at basis 20 gives 5 shares at basis 16, and
merging out of the zero-share holding returns the other asset. -/
theorem asset_merge_weighted_average_witness :
    assetTwoShares.add assetThreeShares =
      .ok { assetTwoShares with shares := 5, cost_basis := some 16 }
    ∧ assetZeroShares.add assetThreeShares = .ok assetThreeShares := by
  constructor
  · have h := asset_merge_weighted_average.1 assetTwoShares assetThreeShares
      10 20 rfl (by norm_num [assetTwoShares])
      (by norm_num [assetTwoShares, assetThreeShares]) rfl rfl
    have h₁ : assetTwoShares.shares + assetThreeShares.shares = 5 := by
      norm_num [assetTwoShares, assetThreeShares]
    have h₂ : (assetTwoShares.shares * 10 + assetThreeShares.shares * 20)
        / (assetTwoShares.shares + assetThreeShares.shares) = 16 := by
      norm_num [assetTwoShares, assetThreeShares]
    rw [h₂, h₁] at h
    exact h
  · exact asset_merge_weighted_average.2 assetZeroShares assetThreeShares
      rfl rfl

/-- C5: when an account config contains any debt holding, `to_account`
builds a `DebtAccount` from the debt entries alone; the configured cash
and the asset entries are discarded — two configs agreeing on
institution, account type and debt entries convert identically, and the
resulting account reconciles to the debt principals only. -/
theorem debt_config_discards_cash_and_assets (c : AccountConfig)
    (h : c.has_debts = true) :
    c.to_account = (DebtAccount.mk? c.institution c.acc_type
        (debtHoldingsOf (c.acc_holdings.getD []))).map Account.debt
    ∧ (∀ d : DebtAccount, c.to_account = .ok (.debt d) →
        d.holdings = debtHoldingsOf (c.acc_holdings.getD [])
        ∧ (d.reconcile).1 = ((debtHoldingsOf
            (c.acc_holdings.getD [])).map Liability.og_principal).sum)
    ∧ ∀ c' : AccountConfig, c'.has_debts = true →
        c'.institution = c.institution → c'.acc_type = c.acc_type →
        debtHoldingsOf (c'.acc_holdings.getD [])
          = debtHoldingsOf (c.acc_holdings.getD []) →
        c'.to_account = c.to_account := by
  have hbranch : ∀ c₀ : AccountConfig, c₀.has_debts = true →
      c₀.to_account = (DebtAccount.mk? c₀.institution c₀.acc_type
        (debtHoldingsOf (c₀.acc_holdings.getD []))).map Account.debt := by
    intro c₀ h₀
    unfold AccountConfig.to_account
    rw [if_pos h₀]
  refine ⟨hbranch c h, ?_, ?_⟩
  · intro d hd
    rw [hbranch c h] at hd
    cases hmk : DebtAccount.mk? c.institution c.acc_type
        (debtHoldingsOf (c.acc_holdings.getD [])) with
    | error m => rw [hmk] at hd; cases hd
    | ok d₀ =>
      rw [hmk] at hd
      injection hd with hd'
      injection hd' with hd''
      have hh : d.holdings = debtHoldingsOf (c.acc_holdings.getD []) := by
        unfold DebtAccount.mk? at hmk
        by_cases hlen :
          (debtHoldingsOf (c.acc_holdings.getD [])).length > 1
        · rw [if_pos hlen] at hmk; cases hmk
        · rw [if_neg hlen] at hmk
          injection hmk with hmk'
          rw [← hd'', ← hmk']
      exact ⟨hh, by rw [DebtAccount.reconcile_fst, hh]⟩
  · intro c' h' hinst hty hdebts
    rw [hbranch c' h', hbranch c h, hinst, hty, hdebts]

/-- Closed instance of `debt_config_discards_cash_and_assets`: the mixed
config (cash 999, one asset entry, one debt entry) converts exactly as
the config stripped to its debt entry, and its account reconciles to the
1200 principal alone. -/
theorem debt_config_discards_cash_and_assets_witness :
    mixedConfig.to_account = debtOnlyConfig.to_account
    ∧ ∀ d : DebtAccount, mixedConfig.to_account = .ok (.debt d) →
        (d.reconcile).1 = ((debtHoldingsOf
          (mixedConfig.acc_holdings.getD [])).map Liability.og_principal).sum := by
  constructor
  · exact ((debt_config_discards_cash_and_assets mixedConfig rfl).2.2
      debtOnlyConfig rfl rfl rfl rfl).symm
  · exact fun d hd =>
      ((debt_config_discards_cash_and_assets mixedConfig rfl).2.1 d hd).2

/-- C6: `buy` fails with the insufficient-funds error exactly when the
amount exceeds the cash balance, and that failure carries the account
state unchanged (same cash, same holdings). -/
theorem buy_insufficient_funds (price : PriceFn) (acc : AssetAccount)
    (amt : ℚ) (holding : Asset) :
    (amt > acc.cash_amt →
      acc.buy price amt holding = .error (.outOfCash, acc))
    ∧ ∀ acc' : AssetAccount,
        acc.buy price amt holding = .error (.outOfCash, acc') →
        amt > acc.cash_amt ∧ acc' = acc := by
  constructor
  · intro h
    unfold AssetAccount.buy
    rw [if_pos h]
  · intro acc' h
    unfold AssetAccount.buy at h
    by_cases hgt : amt > acc.cash_amt
    · rw [if_pos hgt] at h
      injection h with h'
      injection h' with h₁ h₂
      exact ⟨hgt, h₂.symm⟩
    · rw [if_neg hgt] at h
      exfalso
      split at h
      · simp at h
      · split at h
        · simp at h
        · dsimp only at h
          split at h
          · split at h <;> simp at h
          · simp at h

/-- Closed instance of `buy_insufficient_funds`: spending 100 out of an
account holding 10 of cash raises out-of-cash and leaves the account
as it was. -/
theorem buy_insufficient_funds_witness :
    poorAcct.buy price75 100 vtiHolding = .error (.outOfCash, poorAcct) := by
  exact (buy_insufficient_funds price75 poorAcct 100 vtiHolding).1
    (by norm_num [poorAcct])

/-- C7: when the price lookup fails on some held ticker, reconcile
propagates the failure and the carried account state — total_amount
included — is exactly the pre-call state. -/
theorem reconcile_price_failure_keeps_total (price : PriceFn)
    (a : AssetAccount)
    (h : ∃ p ∈ a.holdings, ∃ msg, price p.2.ticker = .error msg) :
    ∃ msg, a.reconcile price = .error (msg, a) := by
  obtain ⟨msg, hmsg⟩ := reconcileLoop_error price a.holdings a.cash_amt h
  refine ⟨msg, ?_⟩
  unfold AssetAccount.reconcile
  rw [hmsg]

/-- Closed instance of `reconcile_price_failure_keeps_total`: the
account with stale total 123 keeps it when every lookup fails. -/
theorem reconcile_price_failure_keeps_total_witness :
    (∃ msg, staleAcct.reconcile noPrices = .error (msg, staleAcct))
    ∧ staleAcct.total_amt = 123 := by
  refine ⟨reconcile_price_failure_keeps_total noPrices staleAcct
    ⟨("VTI", vtiHolding), by simp [staleAcct],
      "no price available", rfl⟩, rfl⟩

/-- C8: constructing a DebtAccount from two or more liabilities raises
the unsupported-configuration error; from zero or one it succeeds with
the given liabilities and a zero total. -/
theorem debt_account_rejects_multiple_liabilities (inst : String)
    (ty : AccountType) (hs : List Liability) :
    (2 ≤ hs.length → DebtAccount.mk? inst ty hs =
      .error "Multiple loan entries for a debt account not yet supported")
    ∧ (hs.length ≤ 1 → DebtAccount.mk? inst ty hs =
      .ok { institution := inst, acc_type := ty, holdings := hs }) := by
  constructor
  · intro h
    unfold DebtAccount.mk?
    rw [if_pos (by omega)]
  · intro h
    unfold DebtAccount.mk?
    rw [if_neg (by omega)]

/-- Closed instance of `debt_account_rejects_multiple_liabilities`: two
liabilities are rejected, a single one is accepted. -/
theorem debt_account_rejects_multiple_liabilities_witness :
    DebtAccount.mk? "Auto Lender" .creditCard twoLiabs =
      .error "Multiple loan entries for a debt account not yet supported"
    ∧ DebtAccount.mk? "Auto Lender" .creditCard [liab30k] =
      .ok { institution := "Auto Lender", acc_type := .creditCard,
            holdings := [liab30k] } := by
  exact ⟨(debt_account_rejects_multiple_liabilities "Auto Lender"
      .creditCard twoLiabs).1 (by simp [twoLiabs]),
    (debt_account_rejects_multiple_liabilities "Auto Lender"
      .creditCard [liab30k]).2 (by simp)⟩

/-- C9: reconcile is idempotent under a stable price source — when a
reconcile returns total `t` and account state `a'`, reconciling `a'`
with the same price function returns the same total and the same
state. -/
theorem asset_reconcile_idempotent (price : PriceFn) (a : AssetAccount)
    (t : ℚ) (a' : AssetAccount) (h : a.reconcile price = .ok (t, a')) :
    a'.reconcile price = .ok (t, a') := by
  have hstate := AssetAccount.reconcile_ok_state price a t a' h
  have hloop := AssetAccount.reconcile_ok_loop price a t a' h
  subst hstate
  unfold AssetAccount.reconcile
  rw [show ({ a with total_amt := t } : AssetAccount).holdings
        = a.holdings from rfl,
      show ({ a with total_amt := t } : AssetAccount).cash_amt
        = a.cash_amt from rfl,
      hloop]

/-- Closed instance of `asset_reconcile_idempotent`: a second reconcile
of the mocked-lookup brokerage account repeats (17500, same state). -/
theorem asset_reconcile_idempotent_witness :
    ({ brokerageAcct with total_amt := 17500 }
        : AssetAccount).reconcile price75 =
      .ok (17500, { brokerageAcct with total_amt := 17500 }) := by
  apply asset_reconcile_idempotent price75 brokerageAcct
  have h : reconcileLoop price75 brokerageAcct.holdings
      brokerageAcct.cash_amt = .ok 17500 := by
    norm_num [reconcileLoop, brokerageAcct, vtiHolding, price75]
  unfold AssetAccount.reconcile
  rw [h]

/-- C10 counterexample: the configuration layer accepts negative shares,
expense ratio, apr, principal and tenure without a validation error, and
passes them into the domain objects, violating the claimed bounds. -/
theorem config_accepts_negative_values :
    negAssetConfig.to_asset.shares = -5
    ∧ negAssetConfig.to_asset.expense_ratio = -1
    ∧ negDebtConfig.to_liability.apr = -1
    ∧ negDebtConfig.to_liability.og_principal = -100
    ∧ negDebtConfig.to_liability.tenure = -12
    ∧ negAccountConfig.to_account = .ok (.asset
        { institution := "Loose Bank", acc_type := .brokerage,
          holdings := [("NEG", negAssetConfig.to_asset)] }) := by
  refine ⟨rfl, rfl, rfl, rfl, rfl, ?_⟩
  simp [negAccountConfig, AccountConfig.to_account, AccountConfig.has_debts,
    AccountConfig.has_assets, HoldingConfig.isDebt, HoldingConfig.isAsset,
    insertAssets, dictSet, negAssetConfig, AssetConfig.to_asset]

/-- C10 amended: the configuration layer validates only types and enum
membership; every numeric field is passed through to the domain object
unchanged, negative values included. -/
theorem config_passes_numeric_fields_through :
    (∀ c : AssetConfig, c.to_asset.shares = c.shares
      ∧ c.to_asset.expense_ratio = c.expense_ratio)
    ∧ ∀ d : DebtConfig, d.to_liability.apr = d.apr
        ∧ d.to_liability.og_principal = d.og_principal
        ∧ d.to_liability.tenure = d.tenure :=
  ⟨fun _ => ⟨rfl, rfl⟩, fun _ => ⟨rfl, rfl, rfl⟩⟩

end BetterTrack
